import Mathlib

/-!
Verification of the outbound email scheduling and throttling engine:
a shallow embedding of `start_campaign` (campaign expander) and
`process_email_queue` (dispatch loop) from the SQL migrations, together
with proofs of the specified properties.
-/

namespace EmailEngine

/-- Status enum for rows of `email_queue` (`email_status` in the migration). -/
inductive EmailStatus
  | queued
  | sending
  | sent
  | failed
  | rescheduled
  deriving DecidableEq, Repr

/-- Status enum for campaigns (`campaign_status` in the migration). -/
inductive CampaignStatus
  | draft
  | active
  | paused
  | completed
  deriving DecidableEq, Repr

/-- Row of `email_steps`: one message template of a sequence. -/
structure Step where
  id : Nat
  sequence_id : Nat
  step_number : Nat
  subject : String
  body : String
  deriving DecidableEq, Repr

/-- Row of `contacts` (the fields used by the engine). -/
structure Contact where
  id : Nat
  email : String
  first_name : String
  company_name : String
  deriving DecidableEq, Repr

/-- Row of `inboxes` (a sender mailbox).  `daily_send_limit` has column
default 40 in the schema; the processor never reads it. -/
structure Inbox where
  id : Nat
  user_id : Nat
  email : String
  access_token : Option String
  daily_send_limit : Nat
  deriving DecidableEq, Repr

/-- Row of `campaigns` (the fields used by the engine). -/
structure Campaign where
  id : Nat
  user_id : Nat
  sequence_id : Nat
  status : CampaignStatus
  deriving DecidableEq, Repr

/-- Row of `campaign_contacts`: enrollment of a contact in a campaign. -/
structure CampaignContact where
  campaign_id : Nat
  contact_id : Nat
  deriving DecidableEq, Repr

/-- Row of `email_queue`: one SendJob.  Timestamps are seconds (Int). -/
structure Job where
  id : Nat
  user_id : Nat
  campaign_id : Nat
  contact_id : Nat
  inbox_id : Nat
  sequence_id : Nat
  email_step_id : Nat
  subject : String
  body : String
  send_at : Int
  status : EmailStatus
  error_message : Option String
  created_at : Int
  updated_at : Int
  deriving DecidableEq, Repr

/-- Row of `inbox_daily_send_counts`: per (inbox, calendar day) counter.
Days are encoded as Int. -/
structure Counter where
  user_id : Nat
  inbox_id : Nat
  send_date : Int
  send_count : Nat
  deriving DecidableEq, Repr

/-- One row of the `RETURNS TABLE (queue_id, status, message)` result of
`process_email_queue`. -/
structure ResultRow where
  queue_id : Nat
  status : String
  message : String
  deriving DecidableEq, Repr

/-- Checks that `p` is a leading segment of the second list (used to model
SQL `REPLACE` scanning). -/
def leadsWith : List Char → List Char → Bool
  | [], _ => true
  | _ :: _, [] => false
  | p :: ps, c :: cs => p == c && leadsWith ps cs

/-- Checks that `p` occurs as a contiguous segment somewhere in the list. -/
def occursIn (p : List Char) : List Char → Bool
  | [] => p.isEmpty
  | c :: cs => leadsWith p (c :: cs) || occursIn p cs

/-- Replaces every occurrence of `p` by `r`, scanning left to right, as SQL
`REPLACE(string, from, to)` does; an empty pattern replaces nothing.  The
`fuel` argument only drives the recursion: each step consumes at least one
input character, so any fuel at least the input length gives the full
scan. -/
def replaceListF (p r : List Char) : Nat → List Char → List Char
  | _, [] => []
  | 0, l => l
  | fuel + 1, c :: cs =>
    if leadsWith p (c :: cs) && !p.isEmpty then
      r ++ replaceListF p r fuel (cs.drop (p.length - 1))
    else
      c :: replaceListF p r fuel cs

/-- Replaces every occurrence of `p` by `r` in the whole list. -/
def replaceList (p r l : List Char) : List Char :=
  replaceListF p r l.length l

/-- String version of `replaceList`, modelling SQL `REPLACE(s, p, r)`. -/
def replaceStr (s p r : String) : String :=
  String.mk (replaceList p.toList r.toList s.toList)

/-- Merge tag for the contact's first name. -/
def tagFirstName : String := "\x7b\x7bfirstName\x7d\x7d"

/-- Merge tag for the contact's company name. -/
def tagCompanyName : String := "\x7b\x7bcompanyName\x7d\x7d"

/-- Unsubscribe-link placeholder left verbatim inside the footer. -/
def unsubscribeTag : String := "\x7b\x7bunsubscribe_link\x7d\x7d"

/-- CAN-SPAM footer appended to every personalized body.  In the SQL source
the `'\n'` inside a standard string literal stands for the two characters
backslash and `n`, which is reproduced here. -/
def complianceFooter : String :=
  "\\n\\n---\\nOur Company Inc.\\n123 Street, City, State 12345\\n<a href=\"" ++
    unsubscribeTag ++ "\">Unsubscribe</a>"

/-- Personalized subject: `REPLACE` of the firstName tag, then of the
companyName tag, exactly as in `start_campaign`. -/
def personalized_subject (fs : Step) (ct : Contact) : String :=
  replaceStr (replaceStr fs.subject tagFirstName ct.first_name) tagCompanyName ct.company_name

/-- Personalized body: the two tag substitutions applied to the step body,
then the compliance footer appended, exactly as in `start_campaign`. -/
def personalized_body (fs : Step) (ct : Contact) : String :=
  replaceStr (replaceStr fs.body tagFirstName ct.first_name) tagCompanyName ct.company_name
    ++ complianceFooter

/-- Database state visible to the campaign expander.  `next_queue_id`
models the `BIGSERIAL` id sequence of `email_queue`; list order models
insertion order. -/
structure DB where
  campaigns : List Campaign
  sequences : List Nat
  email_steps : List Step
  contacts : List Contact
  campaign_contacts : List CampaignContact
  inboxes : List Inbox
  email_queue : List Job
  next_queue_id : Nat
  deriving DecidableEq, Repr

/-- Picks the row with minimal `step_number`, earliest row first on ties,
modelling `ORDER BY es.step_number ASC LIMIT 1`. -/
def pickMinStep : List Step → Option Step
  | [] => none
  | s :: ss =>
    match pickMinStep ss with
    | none => some s
    | some t => if s.step_number ≤ t.step_number then some s else some t

/-- First step of the campaign's sequence, together with the campaign row:
the join `campaigns ⋈ sequences ⋈ email_steps` filtered to the campaign id,
ordered by step number, limited to one row.  `none` when the campaign, its
sequence row, or any step is missing. -/
def firstStepOf (db : DB) (cid : Nat) : Option (Campaign × Step) :=
  match db.campaigns.find? (fun c => c.id == cid) with
  | none => none
  | some c =>
    if db.sequences.contains c.sequence_id then
      (pickMinStep (db.email_steps.filter (fun es => es.sequence_id == c.sequence_id))).map
        (fun s => (c, s))
    else none

/-- Contacts enrolled in the campaign: the join
`contacts ⋈ campaign_contacts` filtered to the campaign id, in enrollment
order. -/
def enrolledContacts (db : DB) (cid : Nat) : List Contact :=
  (db.campaign_contacts.filter (fun cc => cc.campaign_id == cid)).filterMap
    (fun cc => db.contacts.find? (fun ct => ct.id == cc.contact_id))

/-- Randomized delay `floor(random() * (300 - 90 + 1) + 90)` where `r` is
the value returned by `random()` (a real in `[0, 1)`). -/
def random_delay_seconds (r : ℚ) : ℤ :=
  ⌊r * (300 - 90 + 1) + 90⌋

/-- Sum of the first `k` delays drawn starting at draw index `i`. -/
def delaySumFrom (rand : Nat → ℚ) (i : Nat) : Nat → Int
  | 0 => 0
  | k + 1 => delaySumFrom rand i k + random_delay_seconds (rand (i + k))

/-- Loop body of `start_campaign`: one `email_queue` insert per enrolled
contact, accumulating `current_send_time` (argument `t`) across the loop
and drawing the `i`-th `random()` value for the `i`-th contact.  `nid` is
the next `BIGSERIAL` id, `now` the transaction timestamp `NOW()`. -/
def expandContacts (fs : Step) (uid ibid cid : Nat) (rand : Nat → ℚ) (now : Int) :
    Nat → Nat → Int → List Contact → List Job
  | _, _, _, [] => []
  | nid, i, t, c :: cs =>
    let t' := t + random_delay_seconds (rand i)
    { id := nid
      user_id := uid
      campaign_id := cid
      contact_id := c.id
      inbox_id := ibid
      sequence_id := fs.sequence_id
      email_step_id := fs.id
      subject := personalized_subject fs c
      body := personalized_body fs c
      send_at := t'
      status := EmailStatus.queued
      error_message := none
      created_at := now
      updated_at := now } :: expandContacts fs uid ibid cid rand now (nid + 1) (i + 1) t' cs

/-- Model of the SQL function `start_campaign(campaign_id_to_start)`.
Returns the database after the call and `some message` when the function
raised (in which case the transaction rolled back and the database is
returned unchanged).  `rand` supplies the successive `random()` draws and
`now` is `NOW()`. -/
def start_campaign (db : DB) (cid : Nat) (rand : Nat → ℚ) (now : Int) : DB × Option String :=
  match firstStepOf db cid with
  | none =>
    (db, some ("Campaign " ++ toString cid ++ " has no email steps in its sequence."))
  | some (camp, fs) =>
    match db.inboxes.find? (fun b => b.user_id == camp.user_id) with
    | none =>
      (db, some "null value in column inbox_id violates not-null constraint")
    | some ib =>
      let jobs := expandContacts fs camp.user_id ib.id cid rand now
        db.next_queue_id 0 now (enrolledContacts db cid)
      ({ db with
          email_queue := db.email_queue ++ jobs
          next_queue_id := db.next_queue_id + jobs.length
          campaigns := db.campaigns.map
            (fun c => if c.id == cid then { c with status := CampaignStatus.active } else c) },
        none)

/-- Hardcoded constant `daily_limit_per_inbox INT := 40` of
`process_email_queue`. -/
def daily_limit_per_inbox : Nat := 40

/-- Hardcoded constant `batch_size INT := 10` of `process_email_queue`. -/
def batch_size : Nat := 10

/-- Reads today's counter for an inbox: `SELECT send_count ... WHERE
inbox_id = ... AND send_date = ...`, defaulting to 0 when no row exists. -/
def getCount (cs : List Counter) (ibid : Nat) (d : Int) : Nat :=
  match cs.find? (fun c => c.inbox_id == ibid && c.send_date == d) with
  | some c => c.send_count
  | none => 0

/-- Upsert-increment: `INSERT ... VALUES (uid, ibid, d, 1) ON CONFLICT
(inbox_id, send_date) DO UPDATE SET send_count = send_count + 1`. -/
def incrementCount (cs : List Counter) (uid ibid : Nat) (d : Int) : List Counter :=
  if cs.any (fun c => c.inbox_id == ibid && c.send_date == d) then
    cs.map (fun c =>
      if c.inbox_id == ibid && c.send_date == d then
        { c with send_count := c.send_count + 1 }
      else c)
  else
    cs ++ [{ user_id := uid, inbox_id := ibid, send_date := d, send_count := 1 }]

/-- An `UPDATE email_queue SET ... WHERE id = qid` applied to the queue. -/
def updateJob (qid : Nat) (f : Job → Job) (q : List Job) : List Job :=
  q.map (fun j => if j.id == qid then f j else j)

/-- The claim step of the dispatch loop, exactly as in the source:
`UPDATE email_queue SET status = 'sending', updated_at = NOW() WHERE id =
qid` — keyed by id only, with no condition on the prior status and no
check of how many rows matched. -/
def claim_update (now : Int) (qid : Nat) (q : List Job) : List Job :=
  updateJob qid (fun j => { j with status := EmailStatus.sending, updated_at := now }) q

/-- Modelled from the spec: the claim step the specification requires — a
single compare-and-swap update keyed by job id AND prior status `queued`,
reporting whether a row matched.  The source's `process_email_queue` does
not implement this; the definition exists to compare against
`claim_update`. -/
def claim_update_guarded (now : Int) (qid : Nat) (q : List Job) : Bool × List Job :=
  if q.any (fun j => j.id == qid && decide (j.status = EmailStatus.queued)) then
    (true,
      q.map (fun j =>
        if j.id == qid && decide (j.status = EmailStatus.queued) then
          { j with status := EmailStatus.sending, updated_at := now }
        else j))
  else
    (false, q)

/-- Stable insertion of a job into a list ascending in `send_at`: the new
job goes before the first strictly later one. -/
def insertJob (j : Job) : List Job → List Job
  | [] => [j]
  | x :: xs => if x.send_at < j.send_at then x :: insertJob j xs else j :: x :: xs

/-- Stable sort of the queue by ascending `send_at` (insertion order kept
among equal send times), modelling `ORDER BY send_at ASC`. -/
def sortJobs : List Job → List Job
  | [] => []
  | x :: xs => insertJob x (sortJobs xs)

/-- Selection step of the dispatch loop: `SELECT * FROM email_queue WHERE
status = 'queued' AND send_at <= NOW() ORDER BY send_at ASC LIMIT
batch_size`. -/
def selectJobs (queue : List Job) (now : Int) : List Job :=
  (sortJobs (queue.filter
    (fun j => decide (j.status = EmailStatus.queued ∧ j.send_at ≤ now)))).take batch_size

/-- Deterministic tie-breaking order claimed by the specification:
ascending `send_at`, ties broken by ascending id (insertion order, since
`email_queue.id` is `BIGSERIAL`).  The source query does not guarantee
this (see `IsSelectResult`). -/
def dueOrder (a b : Job) : Prop :=
  a.send_at < b.send_at ∨ (a.send_at = b.send_at ∧ a.id < b.id)

/-- Admissible results of `SELECT * FROM email_queue WHERE status =
'queued' AND send_at <= NOW() ORDER BY send_at ASC LIMIT batch_size`:
SQL specifies only that the returned rows are some reordering of the due
rows that is non-strictly sorted by `send_at`, truncated to the batch —
with no secondary sort key the relative order of rows with equal
`send_at` is unspecified. -/
def IsSelectResult (queue : List Job) (now : Int) (sel : List Job) : Prop :=
  ∃ perm : List Job,
    perm.Perm (queue.filter (fun j => decide (j.status = EmailStatus.queued ∧ j.send_at ≤ now))) ∧
    perm.Pairwise (fun a b => a.send_at ≤ b.send_at) ∧
    sel = perm.take batch_size

/-- Outcome of invoking the send-email edge function (the external send
capability): success, or an error whose message becomes the caught
exception text. -/
def SendOracle : Type :=
  Option Inbox → Option Contact → Job → Except String Unit

/-- State threaded through one dispatch cycle: the queue, the daily
counters, and the result rows emitted so far. -/
structure CycleState where
  queue : List Job
  counts : List Counter
  results : List ResultRow
  deriving DecidableEq, Repr

/-- Body of the dispatch loop for one selected job `e` (a row of the
selection snapshot): look up inbox and contact, check the daily quota
against the constant `daily_limit_per_inbox`, otherwise claim the job,
invoke the send capability and record the outcome. -/
def processJob (ibs : List Inbox) (cts : List Contact) (send : SendOracle)
    (now today : Int) (st : CycleState) (e : Job) : CycleState :=
  let inbox_record := ibs.find? (fun b => b.id == e.inbox_id)
  let contact_record := cts.find? (fun c => c.id == e.contact_id)
  let current_send_count := getCount st.counts e.inbox_id today
  if current_send_count ≥ daily_limit_per_inbox then
    { queue := updateJob e.id
        (fun j => { j with
          status := EmailStatus.rescheduled
          send_at := j.send_at + 86400
          updated_at := now }) st.queue
      counts := st.counts
      results := st.results ++ [{ queue_id := e.id, status := "rescheduled", message := "Daily limit reached" }] }
  else
    let q1 := claim_update now e.id st.queue
    match send inbox_record contact_record e with
    | Except.ok _ =>
      { queue := updateJob e.id
          (fun j => { j with status := EmailStatus.sent, updated_at := now }) q1
        counts := incrementCount st.counts e.user_id e.inbox_id today
        results := st.results ++ [{ queue_id := e.id, status := "sent", message := "Email sent successfully" }] }
    | Except.error msg =>
      { queue := updateJob e.id
          (fun j => { j with
            status := EmailStatus.failed
            error_message := some ("Edge function error: " ++ msg)
            updated_at := now }) q1
        counts := st.counts
        results := st.results ++ [{ queue_id := e.id, status := "failed", message := "Failed to send email: " ++ msg }] }

/-- Model of the SQL function `process_email_queue()`: one dispatch cycle.
The selection is a snapshot taken at the start of the cycle; each selected
job is then processed sequentially. -/
def process_email_queue (ibs : List Inbox) (cts : List Contact) (send : SendOracle)
    (now today : Int) (queue : List Job) (counters : List Counter) : CycleState :=
  (selectJobs queue now).foldl (processJob ibs cts send now today)
    { queue := queue, counts := counters, results := [] }

/-- Environment of one dispatch-cycle invocation: the send capability for
that run, the clock `NOW()` and the calendar day `CURRENT_DATE`. -/
structure CycleEnv where
  send : SendOracle
  now : Int
  today : Int

/-- Observable trace of one dispatch cycle: the selection snapshot, the
emitted result rows, and the day the cycle ran. -/
structure TraceEntry where
  sel : List Job
  results : List ResultRow
  today : Int

/-- Runs a sequence of dispatch cycles, collecting each cycle's trace. -/
def runCyclesTrace (ibs : List Inbox) (cts : List Contact) :
    List CycleEnv → List Job × List Counter → (List Job × List Counter) × List TraceEntry
  | [], st => (st, [])
  | env :: envs, (q, c) =>
    let out := process_email_queue ibs cts env.send env.now env.today q c
    let rest := runCyclesTrace ibs cts envs (out.queue, out.counts)
    (rest.1, { sel := selectJobs q env.now, results := out.results, today := env.today } :: rest.2)

/-- Number of successful sends recorded in a trace for inbox `S` on day
`D`: result rows with status `"sent"` paired with a selected job of that
inbox, in cycles run on day `D`. -/
def sentInTrace (S : Nat) (D : Int) : List TraceEntry → Nat
  | [] => 0
  | e :: es =>
    (if e.today = D then
      (e.sel.zip e.results).countP (fun pr => pr.1.inbox_id == S && pr.2.status == "sent")
    else 0) + sentInTrace S D es

/-- Sample contact used by concrete instances. -/
def contact1 : Contact :=
  { id := 1, email := "ada@acme.io", first_name := "Ada", company_name := "Acme" }

/-- Second sample contact. -/
def contact2 : Contact :=
  { id := 2, email := "bob@initech.io", first_name := "Bob", company_name := "Initech" }

/-- Sample inbox with the default daily limit. -/
def inbox1 : Inbox :=
  { id := 1, user_id := 1, email := "out@sender.io", access_token := some "tok", daily_send_limit := 40 }

/-- Sample inbox whose `daily_send_limit` column is set to 1. -/
def inboxLimit1 : Inbox :=
  { id := 1, user_id := 1, email := "out@sender.io", access_token := some "tok", daily_send_limit := 1 }

/-- Sample sequence step whose templates use the two supported merge tags
and one unsupported one. -/
def step1 : Step :=
  { id := 1
    sequence_id := 1
    step_number := 1
    subject := "Hello \x7b\x7bfirstName\x7d\x7d"
    body := "Dear \x7b\x7bfirstName\x7d\x7d of \x7b\x7bcompanyName\x7d\x7d, \x7b\x7blastName\x7d\x7d." }

/-- Sample step whose templates contain no supported merge tag. -/
def stepPlain : Step :=
  { id := 1, sequence_id := 1, step_number := 1, subject := "Quick question", body := "Just checking in." }

/-- Sample campaign owned by user 1, using sequence 1. -/
def campaign1 : Campaign :=
  { id := 1, user_id := 1, sequence_id := 1, status := CampaignStatus.draft }

/-- Sample database with two enrolled contacts and a one-step sequence. -/
def db0 : DB :=
  { campaigns := [campaign1]
    sequences := [1]
    email_steps := [step1]
    contacts := [contact1, contact2]
    campaign_contacts := [{ campaign_id := 1, contact_id := 1 }, { campaign_id := 1, contact_id := 2 }]
    inboxes := [inbox1]
    email_queue := []
    next_queue_id := 1 }

/-- Database like `db0` but whose sequence has no steps. -/
def dbNoSteps : DB :=
  { db0 with email_steps := [] }

/-- Send capability that always succeeds. -/
def okSend : SendOracle := fun _ _ _ => Except.ok ()

/-- Send capability that always fails with a provider message. -/
def failSend : SendOracle := fun _ _ _ => Except.error "SMTP 550 rejected"

/-- A queued job due at time 0 for inbox 1. -/
def jq1 : Job :=
  { id := 1, user_id := 1, campaign_id := 1, contact_id := 1, inbox_id := 1
    sequence_id := 1, email_step_id := 1, subject := "s1", body := "b1"
    send_at := 0, status := EmailStatus.queued, error_message := none
    created_at := 0, updated_at := 0 }

/-- A second queued job due at time 0 for inbox 1. -/
def jq2 : Job :=
  { jq1 with id := 2, contact_id := 2 }

/-- A job already marked `sent` (terminal status). -/
def jSentDone : Job :=
  { jq1 with id := 1, status := EmailStatus.sent }

/-- A rescheduled job whose `send_at` has already elapsed. -/
def jReschedDue : Job :=
  { jq1 with id := 1, status := EmailStatus.rescheduled, send_at := 0 }

/-- A queued job for inbox 5, which does not exist in the inboxes table of
the counterexample states. -/
def jOrphan : Job :=
  { jq1 with id := 1, inbox_id := 5, contact_id := 9 }

/-- A queued job that is not yet due at time 100. -/
def jLater : Job :=
  { jq1 with id := 3, send_at := 999 }

/-- Counter table in which inbox 1 has already sent 40 emails on day 0. -/
def counters40 : List Counter :=
  [{ user_id := 1, inbox_id := 1, send_date := 0, send_count := 40 }]

/-- Cycle state holding one due job for an inbox whose daily count is 40. -/
def cycleStateAtLimit : CycleState :=
  { queue := [jq1], counts := counters40, results := [] }

/-- Sample queue in insertion order: two due jobs and one not yet due. -/
def qW : List Job := [jq1, jq2, jLater]

/-- Degenerate `random()` stream that always returns 0. -/
def rand0 : Nat → ℚ := fun _ => 0

theorem replaceListF_of_not_occurs (p r : List Char) :
    ∀ l : List Char, occursIn p l = false → ∀ fuel, replaceListF p r fuel l = l := by
  intro l
  induction l with
  | nil =>
    intro _ fuel
    cases fuel <;> rfl
  | cons c cs ih =>
    intro h fuel
    have h12 : leadsWith p (c :: cs) = false ∧ occursIn p cs = false := by
      simpa [occursIn, Bool.or_eq_false_iff] using h
    cases fuel with
    | zero => rfl
    | succ f =>
      simp only [replaceListF, h12.1, Bool.false_and, Bool.false_eq_true, if_false]
      rw [ih h12.2 f]

theorem replaceStr_of_not_occurs (s p r : String)
    (h : occursIn p.toList s.toList = false) : replaceStr s p r = s := by
  unfold replaceStr replaceList
  rw [replaceListF_of_not_occurs p.toList r.toList s.toList h]
  cases s
  rfl

theorem occursIn_append_right (p l₁ l₂ : List Char) (h : occursIn p l₂ = true) :
    occursIn p (l₁ ++ l₂) = true := by
  induction l₁ with
  | nil => simpa using h
  | cons c cs ih =>
    simp only [List.cons_append, occursIn, Bool.or_eq_true]
    exact Or.inr ih

theorem expandContacts_length (fs : Step) (uid ibid cid : Nat) (rand : Nat → ℚ) (now : Int) :
    ∀ (cs : List Contact) (nid i : Nat) (t : Int),
      (expandContacts fs uid ibid cid rand now nid i t cs).length = cs.length := by
  intro cs
  induction cs with
  | nil => intro nid i t; rfl
  | cons c cs ih =>
    intro nid i t
    simp only [expandContacts, List.length_cons, ih]

theorem delaySumFrom_shift (rand : Nat → ℚ) (i : Nat) :
    ∀ k, delaySumFrom rand i (k + 1) =
      random_delay_seconds (rand i) + delaySumFrom rand (i + 1) k := by
  intro k
  induction k with
  | zero => simp [delaySumFrom]
  | succ k ih =>
    have harg : i + (k + 1) = (i + 1) + k := by omega
    calc delaySumFrom rand i (k + 1 + 1)
        = delaySumFrom rand i (k + 1) + random_delay_seconds (rand (i + (k + 1))) := rfl
      _ = random_delay_seconds (rand i) + delaySumFrom rand (i + 1) k +
            random_delay_seconds (rand ((i + 1) + k)) := by rw [ih, harg]
      _ = random_delay_seconds (rand i) + delaySumFrom rand (i + 1) (k + 1) := by
            simp [delaySumFrom, add_assoc]

theorem expandContacts_get (fs : Step) (uid ibid cid : Nat) (rand : Nat → ℚ) (now : Int) :
    ∀ (cs : List Contact) (nid i : Nat) (t : Int) (k : Nat) (hk : k < cs.length)
      (hk2 : k < (expandContacts fs uid ibid cid rand now nid i t cs).length),
      (expandContacts fs uid ibid cid rand now nid i t cs).get ⟨k, hk2⟩ =
        { id := nid + k
          user_id := uid
          campaign_id := cid
          contact_id := (cs.get ⟨k, hk⟩).id
          inbox_id := ibid
          sequence_id := fs.sequence_id
          email_step_id := fs.id
          subject := personalized_subject fs (cs.get ⟨k, hk⟩)
          body := personalized_body fs (cs.get ⟨k, hk⟩)
          send_at := t + delaySumFrom rand i (k + 1)
          status := EmailStatus.queued
          error_message := none
          created_at := now
          updated_at := now } := by
  intro cs
  induction cs with
  | nil => intro nid i t k hk; exact absurd hk (Nat.not_lt_zero k)
  | cons c cs ih =>
    intro nid i t k hk hk2
    cases k with
    | zero =>
      simp [expandContacts, delaySumFrom]
    | succ k' =>
      have hk' : k' < cs.length := Nat.lt_of_succ_lt_succ hk
      have hk2' : k' < (expandContacts fs uid ibid cid rand now (nid + 1) (i + 1)
          (t + random_delay_seconds (rand i)) cs).length := by
        rw [expandContacts_length]; exact hk'
      have hrec := ih (nid + 1) (i + 1) (t + random_delay_seconds (rand i)) k' hk' hk2'
      have hshift := delaySumFrom_shift rand i (k' + 1)
      simp only [expandContacts, List.get_cons_succ, hrec, hshift]
      have hn : nid + 1 + k' = nid + (k' + 1) := by omega
      rw [hn, add_assoc]

theorem random_delay_bounds (r : ℚ) (h0 : 0 ≤ r) (h1 : r < 1) :
    90 ≤ random_delay_seconds r ∧ random_delay_seconds r ≤ 300 := by
  unfold random_delay_seconds
  have h211 : (300 - 90 + 1 : ℚ) = 211 := by norm_num
  rw [h211]
  constructor
  · apply Int.le_floor.mpr
    push_cast
    nlinarith
  · have hlt : ⌊r * 211 + 90⌋ < 301 := by
      apply Int.floor_lt.mpr
      push_cast
      nlinarith
    omega

theorem getCount_incrementCount (cs : List Counter) (uid ibid : Nat) (d : Int) (S : Nat) (D : Int) :
    getCount (incrementCount cs uid ibid d) S D =
      getCount cs S D + (if S = ibid ∧ D = d then 1 else 0) := by
  classical
  have hq : ∀ r : Counter, (r.inbox_id == S && r.send_date == D) = true ↔
      (r.inbox_id = S ∧ r.send_date = D) := by
    intro r
    simp
  unfold incrementCount getCount
  by_cases hany : cs.any (fun c => c.inbox_id == ibid && c.send_date == d) = true
  · rw [if_pos hany]
    have hstable : (fun c : Counter => c.inbox_id == S && c.send_date == D) ∘
        (fun c : Counter => if c.inbox_id == ibid && c.send_date == d then
          { c with send_count := c.send_count + 1 } else c) =
        (fun c : Counter => c.inbox_id == S && c.send_date == D) := by
      funext c
      by_cases hc : (c.inbox_id == ibid && c.send_date == d) = true
      · simp only [Function.comp_apply, if_pos hc]
      · simp only [Function.comp_apply, if_neg hc]
    rw [List.find?_map, hstable]
    cases hfq : cs.find? (fun c : Counter => c.inbox_id == S && c.send_date == D) with
    | none =>
      simp only [Option.map_none']
      by_cases hkey : S = ibid ∧ D = d
      · exfalso
        obtain ⟨x, hx, hpx⟩ := List.any_eq_true.mp hany
        have : ¬ (x.inbox_id == S && x.send_date == D) = true := by
          have := List.find?_eq_none.mp hfq x hx
          exact this
        apply this
        rw [hq]
        have := (show (x.inbox_id = ibid ∧ x.send_date = d) from by simpa using hpx)
        exact ⟨hkey.1 ▸ this.1, hkey.2 ▸ this.2⟩
      · rw [if_neg hkey]
    | some r =>
      simp only [Option.map_some']
      have hr : r.inbox_id = S ∧ r.send_date = D := by
        have := List.find?_some hfq
        simpa using this
      by_cases hkey : S = ibid ∧ D = d
      · have hpr : (r.inbox_id == ibid && r.send_date == d) = true := by
          simp only [Bool.and_eq_true, beq_iff_eq]
          exact ⟨hkey.1 ▸ hr.1, hkey.2 ▸ hr.2⟩
        rw [if_pos hpr, if_pos hkey]
      · have hpr : ¬ (r.inbox_id == ibid && r.send_date == d) = true := by
          simp only [Bool.and_eq_true, beq_iff_eq]
          intro hc
          exact hkey ⟨hr.1 ▸ hc.1, hr.2 ▸ hc.2⟩
        rw [if_neg hpr, if_neg hkey]
        omega
  · rw [if_neg hany]
    have hsingle : List.find? (fun c : Counter => c.inbox_id == S && c.send_date == D)
        [{ user_id := uid, inbox_id := ibid, send_date := d, send_count := 1 }] =
        if S = ibid ∧ D = d then
          some { user_id := uid, inbox_id := ibid, send_date := d, send_count := 1 }
        else none := by
      rw [List.find?_singleton]
      dsimp only
      by_cases h1 : S = ibid <;> by_cases h2 : D = d
      · have hc : ((ibid == S) && (d == D)) = true := by
          simp [h1, h2]
        rw [if_pos hc, if_pos ⟨h1, h2⟩]
      · have hc : ¬ ((ibid == S) && (d == D)) = true := by
          simp only [Bool.and_eq_true, beq_iff_eq]
          intro h
          exact h2 h.2.symm
        rw [if_neg hc, if_neg (fun h => h2 h.2)]
      · have hc : ¬ ((ibid == S) && (d == D)) = true := by
          simp only [Bool.and_eq_true, beq_iff_eq]
          intro h
          exact h1 h.1.symm
        rw [if_neg hc, if_neg (fun h => h1 h.1)]
      · have hc : ¬ ((ibid == S) && (d == D)) = true := by
          simp only [Bool.and_eq_true, beq_iff_eq]
          intro h
          exact h1 h.1.symm
        rw [if_neg hc, if_neg (fun h => h1 h.1)]
    rw [List.find?_append, hsingle]
    cases hfq : cs.find? (fun c : Counter => c.inbox_id == S && c.send_date == D) with
    | some r =>
      have hr : r.inbox_id = S ∧ r.send_date = D := by
        have := List.find?_some hfq
        simpa using this
      have hkey : ¬ (S = ibid ∧ D = d) := by
        intro hk
        apply hany
        refine List.any_eq_true.mpr ⟨r, List.mem_of_find?_eq_some hfq, ?_⟩
        simp only [Bool.and_eq_true, beq_iff_eq]
        exact ⟨hk.1 ▸ hr.1, hk.2 ▸ hr.2⟩
      simp only [if_neg hkey]
      rfl
    | none =>
      by_cases hkey : S = ibid ∧ D = d
      · simp only [if_pos hkey]
        rfl
      · simp only [if_neg hkey]
        rfl

theorem updateJob_length (qid : Nat) (f : Job → Job) (q : List Job) :
    (updateJob qid f q).length = q.length := by
  simp [updateJob]

theorem updateJob_get_ne (qid : Nat) (f : Job → Job) (q : List Job) (k : Nat)
    (hk : k < q.length) (hk2 : k < (updateJob qid f q).length)
    (hne : (q.get ⟨k, hk⟩).id ≠ qid) :
    (updateJob qid f q).get ⟨k, hk2⟩ = q.get ⟨k, hk⟩ := by
  simp only [updateJob, List.get_eq_getElem, List.getElem_map]
  rw [if_neg]
  simp only [beq_iff_eq]
  exact fun h => hne (by simpa using h)

theorem updateJob_mem (qid : Nat) (f : Job → Job) (q : List Job) (j : Job)
    (hj : j ∈ updateJob qid f q) : j ∈ q ∨ ∃ j0 ∈ q, j = f j0 := by
  simp only [updateJob, List.mem_map] at hj
  obtain ⟨j0, hj0, hfj⟩ := hj
  by_cases hid : (j0.id == qid) = true
  · rw [if_pos hid] at hfj
    exact Or.inr ⟨j0, hj0, hfj.symm⟩
  · rw [if_neg hid] at hfj
    exact Or.inl (hfj ▸ hj0)

theorem processJob_shape (ibs : List Inbox) (cts : List Contact) (send : SendOracle)
    (now today : Int) (st : CycleState) (e : Job) :
    ∃ r : ResultRow,
      (processJob ibs cts send now today st e).results = st.results ++ [r] ∧
      r.queue_id = e.id ∧
      ((r.status = "sent" ∧ r.message = "Email sent successfully" ∧
          (processJob ibs cts send now today st e).counts =
            incrementCount st.counts e.user_id e.inbox_id today) ∨
        (r.status = "rescheduled" ∧ r.message = "Daily limit reached" ∧
          (processJob ibs cts send now today st e).counts = st.counts) ∨
        (r.status = "failed" ∧ (∃ m, r.message = "Failed to send email: " ++ m) ∧
          (processJob ibs cts send now today st e).counts = st.counts)) := by
  unfold processJob
  by_cases hquota : getCount st.counts e.inbox_id today ≥ daily_limit_per_inbox
  · rw [if_pos hquota]
    exact ⟨_, rfl, rfl, Or.inr (Or.inl ⟨rfl, rfl, rfl⟩)⟩
  · rw [if_neg hquota]
    cases hs : send (ibs.find? fun b => b.id == e.inbox_id)
        (cts.find? fun c => c.id == e.contact_id) e with
    | ok u => exact ⟨_, rfl, rfl, Or.inl ⟨rfl, rfl, rfl⟩⟩
    | error m => exact ⟨_, rfl, rfl, Or.inr (Or.inr ⟨rfl, ⟨m, rfl⟩, rfl⟩)⟩

theorem foldl_processJob_results_counts (ibs : List Inbox) (cts : List Contact)
    (send : SendOracle) (now today : Int) :
    ∀ (es : List Job) (st : CycleState),
      ∃ new : List ResultRow,
        (es.foldl (processJob ibs cts send now today) st).results = st.results ++ new ∧
        new.length = es.length ∧
        ∀ (S : Nat) (D : Int),
          getCount (es.foldl (processJob ibs cts send now today) st).counts S D =
            getCount st.counts S D +
              (if D = today then
                (es.zip new).countP (fun pr => pr.1.inbox_id == S && pr.2.status == "sent")
              else 0) := by
  intro es
  induction es with
  | nil =>
    intro st
    exact ⟨[], by simp, rfl, by intro S D; simp⟩
  | cons e es ih =>
    intro st
    obtain ⟨r, hres, hqid, hdisj⟩ := processJob_shape ibs cts send now today st e
    obtain ⟨new', h1, h2, h3⟩ := ih (processJob ibs cts send now today st e)
    refine ⟨r :: new', ?_, ?_, ?_⟩
    · rw [List.foldl_cons, h1, hres, List.append_assoc]
      rfl
    · simp [h2]
    · intro S D
      rw [List.foldl_cons, h3 S D]
      have hzip : ((e :: es).zip (r :: new')) = (e, r) :: es.zip new' := rfl
      rcases hdisj with ⟨hs, hm, hc⟩ | ⟨hs, hm, hc⟩ | ⟨hs, hm, hc⟩
      · rw [hc, getCount_incrementCount, hzip, List.countP_cons]
        have hcond : (((e, r).1.inbox_id == S && (e, r).2.status == "sent") = true) ↔
            (e.inbox_id = S) := by
          simp [hs]
        simp only [hcond]
        by_cases hD : D = today
        · by_cases hS : e.inbox_id = S
          · simp [hD, hS]
            omega
          · have hS' : ¬ (S = e.inbox_id) := fun h => hS h.symm
            simp [hD, hS, hS']
        · simp [hD]
      · rw [hc, hzip, List.countP_cons]
        have hcond : (((e, r).1.inbox_id == S && (e, r).2.status == "sent") = true) ↔ False := by
          simp [hs]
        simp only [hcond]
        simp
      · rw [hc, hzip, List.countP_cons]
        have hcond : (((e, r).1.inbox_id == S && (e, r).2.status == "sent") = true) ↔ False := by
          simp [hs]
        simp only [hcond]
        simp

theorem processJob_queue_length (ibs : List Inbox) (cts : List Contact) (send : SendOracle)
    (now today : Int) (st : CycleState) (e : Job) :
    (processJob ibs cts send now today st e).queue.length = st.queue.length := by
  unfold processJob
  by_cases hquota : getCount st.counts e.inbox_id today ≥ daily_limit_per_inbox
  · rw [if_pos hquota]
    simp [updateJob]
  · rw [if_neg hquota]
    cases hs : send (ibs.find? fun b => b.id == e.inbox_id)
        (cts.find? fun c => c.id == e.contact_id) e with
    | ok u => simp [updateJob, claim_update]
    | error m => simp [updateJob, claim_update]

theorem processJob_queue_get_ne (ibs : List Inbox) (cts : List Contact) (send : SendOracle)
    (now today : Int) (st : CycleState) (e : Job) (k : Nat)
    (hk : k < st.queue.length) (hk2 : k < (processJob ibs cts send now today st e).queue.length)
    (hne : (st.queue.get ⟨k, hk⟩).id ≠ e.id) :
    (processJob ibs cts send now today st e).queue.get ⟨k, hk2⟩ = st.queue.get ⟨k, hk⟩ := by
  have hclaim : ∀ (hk1 : k < (claim_update now e.id st.queue).length),
      (claim_update now e.id st.queue).get ⟨k, hk1⟩ = st.queue.get ⟨k, hk⟩ := by
    intro hk1
    exact updateJob_get_ne e.id _ st.queue k hk hk1 hne
  revert hk2
  unfold processJob
  by_cases hquota : getCount st.counts e.inbox_id today ≥ daily_limit_per_inbox
  · rw [if_pos hquota]
    intro hk2
    exact updateJob_get_ne e.id _ st.queue k hk hk2 hne
  · rw [if_neg hquota]
    cases hs : send (ibs.find? fun b => b.id == e.inbox_id)
        (cts.find? fun c => c.id == e.contact_id) e with
    | ok u =>
      intro hk2
      have hk1 : k < (claim_update now e.id st.queue).length := by
        simpa [claim_update, updateJob] using hk
      have hmid := hclaim hk1
      have hne1 : ((claim_update now e.id st.queue).get ⟨k, hk1⟩).id ≠ e.id := by
        rw [hmid]; exact hne
      calc (updateJob e.id _ (claim_update now e.id st.queue)).get ⟨k, hk2⟩
          = (claim_update now e.id st.queue).get ⟨k, hk1⟩ :=
            updateJob_get_ne e.id _ _ k hk1 hk2 hne1
        _ = st.queue.get ⟨k, hk⟩ := hmid
    | error m =>
      intro hk2
      have hk1 : k < (claim_update now e.id st.queue).length := by
        simpa [claim_update, updateJob] using hk
      have hmid := hclaim hk1
      have hne1 : ((claim_update now e.id st.queue).get ⟨k, hk1⟩).id ≠ e.id := by
        rw [hmid]; exact hne
      calc (updateJob e.id _ (claim_update now e.id st.queue)).get ⟨k, hk2⟩
          = (claim_update now e.id st.queue).get ⟨k, hk1⟩ :=
            updateJob_get_ne e.id _ _ k hk1 hk2 hne1
        _ = st.queue.get ⟨k, hk⟩ := hmid

theorem foldl_processJob_frame (ibs : List Inbox) (cts : List Contact) (send : SendOracle)
    (now today : Int) :
    ∀ (es : List Job) (st : CycleState),
      (es.foldl (processJob ibs cts send now today) st).queue.length = st.queue.length ∧
      ∀ (k : Nat) (hk : k < st.queue.length)
        (hk2 : k < (es.foldl (processJob ibs cts send now today) st).queue.length),
        (st.queue.get ⟨k, hk⟩).id ∉ es.map (fun j => j.id) →
        (es.foldl (processJob ibs cts send now today) st).queue.get ⟨k, hk2⟩ =
          st.queue.get ⟨k, hk⟩ := by
  intro es
  induction es with
  | nil =>
    intro st
    exact ⟨rfl, fun k hk hk2 _ => rfl⟩
  | cons e es ih =>
    intro st
    obtain ⟨ihlen, ihget⟩ := ih (processJob ibs cts send now today st e)
    constructor
    · rw [List.foldl_cons, ihlen, processJob_queue_length]
    · intro k hk hk2 hnotin
      have hne : (st.queue.get ⟨k, hk⟩).id ≠ e.id := by
        intro h
        exact hnotin (by
          simp only [List.map_cons, List.mem_cons]
          exact Or.inl h)
      have hnotin' : (st.queue.get ⟨k, hk⟩).id ∉ es.map (fun j => j.id) := by
        intro h
        exact hnotin (by
          simp only [List.map_cons, List.mem_cons]
          exact Or.inr h)
      have hk1 : k < (processJob ibs cts send now today st e).queue.length := by
        rw [processJob_queue_length]; exact hk
      have hmid := processJob_queue_get_ne ibs cts send now today st e k hk hk1 hne
      have hk2' : k < (es.foldl (processJob ibs cts send now today)
          (processJob ibs cts send now today st e)).queue.length := by
        rw [ihlen, processJob_queue_length]; exact hk
      have hgoal : (es.foldl (processJob ibs cts send now today)
          (processJob ibs cts send now today st e)).queue.get ⟨k, hk2'⟩ =
          st.queue.get ⟨k, hk⟩ := by
        calc (es.foldl (processJob ibs cts send now today)
                (processJob ibs cts send now today st e)).queue.get ⟨k, hk2'⟩
            = (processJob ibs cts send now today st e).queue.get ⟨k, hk1⟩ := by
              apply ihget
              rw [hmid]
              exact hnotin'
          _ = st.queue.get ⟨k, hk⟩ := hmid
      exact hgoal

theorem mem_insertJob (j x : Job) (l : List Job) :
    x ∈ insertJob j l ↔ x = j ∨ x ∈ l := by
  induction l with
  | nil => simp [insertJob]
  | cons a l ih =>
    unfold insertJob
    by_cases h : a.send_at < j.send_at
    · rw [if_pos h]
      simp only [List.mem_cons, ih]
      tauto
    · rw [if_neg h]
      simp only [List.mem_cons]

theorem mem_sortJobs (x : Job) (l : List Job) : x ∈ sortJobs l ↔ x ∈ l := by
  induction l with
  | nil => simp [sortJobs]
  | cons a l ih =>
    unfold sortJobs
    rw [mem_insertJob]
    simp only [List.mem_cons, ih]

theorem length_insertJob (j : Job) (l : List Job) :
    (insertJob j l).length = l.length + 1 := by
  induction l with
  | nil => rfl
  | cons a l ih =>
    unfold insertJob
    by_cases h : a.send_at < j.send_at
    · rw [if_pos h]
      simp [ih]
    · rw [if_neg h]
      simp

theorem length_sortJobs (l : List Job) : (sortJobs l).length = l.length := by
  induction l with
  | nil => rfl
  | cons a l ih =>
    unfold sortJobs
    rw [length_insertJob, ih]
    rfl

theorem perm_insertJob (j : Job) (l : List Job) : (insertJob j l).Perm (j :: l) := by
  induction l with
  | nil => exact List.Perm.refl _
  | cons a l ih =>
    unfold insertJob
    by_cases h : a.send_at < j.send_at
    · rw [if_pos h]
      exact (ih.cons a).trans (List.Perm.swap j a l)
    · rw [if_neg h]

theorem perm_sortJobs (l : List Job) : (sortJobs l).Perm l := by
  induction l with
  | nil => exact List.Perm.refl _
  | cons a l ih =>
    unfold sortJobs
    exact (perm_insertJob a (sortJobs l)).trans (ih.cons a)

theorem pairwise_le_insertJob (j : Job) (l : List Job)
    (hl : l.Pairwise (fun a b => a.send_at ≤ b.send_at)) :
    (insertJob j l).Pairwise (fun a b => a.send_at ≤ b.send_at) := by
  induction l with
  | nil => simp [insertJob]
  | cons a l ih =>
    rw [List.pairwise_cons] at hl
    obtain ⟨ha, hl'⟩ := hl
    unfold insertJob
    by_cases h : a.send_at < j.send_at
    · rw [if_pos h]
      rw [List.pairwise_cons]
      refine ⟨?_, ih hl'⟩
      intro y hy
      rcases (mem_insertJob j y l).mp hy with rfl | hy'
      · exact le_of_lt h
      · exact ha y hy'
    · rw [if_neg h]
      rw [List.pairwise_cons]
      refine ⟨?_, List.pairwise_cons.mpr ⟨ha, hl'⟩⟩
      intro y hy
      rcases List.mem_cons.mp hy with rfl | hy'
      · exact not_lt.mp h
      · exact le_trans (not_lt.mp h) (ha y hy')

theorem pairwise_le_sortJobs (l : List Job) :
    (sortJobs l).Pairwise (fun a b => a.send_at ≤ b.send_at) := by
  induction l with
  | nil => simp [sortJobs]
  | cons a l ih =>
    unfold sortJobs
    exact pairwise_le_insertJob a (sortJobs l) ih

theorem runCyclesTrace_getCount (ibs : List Inbox) (cts : List Contact) :
    ∀ (envs : List CycleEnv) (q : List Job) (c : List Counter) (S : Nat) (D : Int),
      getCount (runCyclesTrace ibs cts envs (q, c)).1.2 S D =
        getCount c S D + sentInTrace S D (runCyclesTrace ibs cts envs (q, c)).2 := by
  intro envs
  induction envs with
  | nil =>
    intro q c S D
    simp [runCyclesTrace, sentInTrace]
  | cons env envs ih =>
    intro q c S D
    obtain ⟨new, hres, hlen, hcount⟩ := foldl_processJob_results_counts ibs cts env.send
      env.now env.today (selectJobs q env.now) { queue := q, counts := c, results := [] }
    have hres' : (process_email_queue ibs cts env.send env.now env.today q c).results = new := by
      simpa [process_email_queue] using hres
    have hcount' : ∀ (S' : Nat) (D' : Int),
        getCount (process_email_queue ibs cts env.send env.now env.today q c).counts S' D' =
          getCount c S' D' +
            (if D' = env.today then
              ((selectJobs q env.now).zip new).countP
                (fun pr => pr.1.inbox_id == S' && pr.2.status == "sent")
            else 0) := by
      intro S' D'
      simpa [process_email_queue] using hcount S' D'
    simp only [runCyclesTrace, sentInTrace]
    rw [ih, hcount', hres']
    by_cases hD : D = env.today
    · rw [if_pos hD, if_pos hD.symm]
      omega
    · rw [if_neg hD, if_neg (fun h => hD h.symm)]
      omega

theorem edge_error_ne_missing (m : String) :
    ("Edge function error: " ++ m) ≠ "missing reference" := by
  intro h
  have hlen := congrArg String.length h
  rw [String.length_append] at hlen
  have e1 : ("Edge function error: " : String).length = 21 := by decide
  have e2 : ("missing reference" : String).length = 17 := by decide
  omega

theorem fail_msg_ne_missing (m : String) :
    ("Failed to send email: " ++ m) ≠ "missing reference" := by
  intro h
  have hlen := congrArg String.length h
  rw [String.length_append] at hlen
  have e1 : ("Failed to send email: " : String).length = 22 := by decide
  have e2 : ("missing reference" : String).length = 17 := by decide
  omega

theorem processJob_error_inv (ibs : List Inbox) (cts : List Contact) (send : SendOracle)
    (now today : Int) (st : CycleState) (e : Job)
    (h0 : ∀ j ∈ st.queue, j.error_message ≠ some "missing reference") :
    ∀ j ∈ (processJob ibs cts send now today st e).queue,
      j.error_message ≠ some "missing reference" := by
  intro j
  revert j
  unfold processJob
  by_cases hquota : getCount st.counts e.inbox_id today ≥ daily_limit_per_inbox
  · rw [if_pos hquota]
    intro j hj
    rcases updateJob_mem _ _ _ _ hj with hmem | ⟨j0, hj0, rfl⟩
    · exact h0 j hmem
    · exact h0 j0 hj0
  · rw [if_neg hquota]
    cases hsend : send (ibs.find? fun b => b.id == e.inbox_id)
        (cts.find? fun c => c.id == e.contact_id) e with
    | ok u =>
      intro j hj
      rcases updateJob_mem _ _ _ _ hj with hmem | ⟨j0, hj0, rfl⟩
      · rcases updateJob_mem _ _ _ _ hmem with hmem2 | ⟨j1, hj1, rfl⟩
        · exact h0 j hmem2
        · exact h0 j1 hj1
      · rcases updateJob_mem _ _ _ _ hj0 with hmem2 | ⟨j1, hj1, rfl⟩
        · exact h0 j0 hmem2
        · exact h0 j1 hj1
    | error m =>
      intro j hj
      rcases updateJob_mem _ _ _ _ hj with hmem | ⟨j0, hj0, rfl⟩
      · rcases updateJob_mem _ _ _ _ hmem with hmem2 | ⟨j1, hj1, rfl⟩
        · exact h0 j hmem2
        · exact h0 j1 hj1
      · intro hcontra
        exact edge_error_ne_missing m (Option.some.inj hcontra)

theorem foldl_processJob_no_missing (ibs : List Inbox) (cts : List Contact) (send : SendOracle)
    (now today : Int) :
    ∀ (es : List Job) (st : CycleState),
      (∀ j ∈ st.queue, j.error_message ≠ some "missing reference") →
      (∀ r ∈ st.results, r.message ≠ "missing reference") →
      (∀ j ∈ (es.foldl (processJob ibs cts send now today) st).queue,
          j.error_message ≠ some "missing reference") ∧
      (∀ r ∈ (es.foldl (processJob ibs cts send now today) st).results,
          r.message ≠ "missing reference") := by
  intro es
  induction es with
  | nil =>
    intro st hq hr
    exact ⟨hq, hr⟩
  | cons e es ih =>
    intro st hq hr
    obtain ⟨r0, hres, hqid, hdisj⟩ := processJob_shape ibs cts send now today st e
    have hq1 := processJob_error_inv ibs cts send now today st e hq
    have hr1 : ∀ r ∈ (processJob ibs cts send now today st e).results,
        r.message ≠ "missing reference" := by
      intro r hrmem
      rw [hres] at hrmem
      rcases List.mem_append.mp hrmem with hold | hnew
      · exact hr r hold
      · have : r = r0 := by simpa using hnew
        subst this
        rcases hdisj with ⟨_, hm, _⟩ | ⟨_, hm, _⟩ | ⟨_, ⟨m, hm⟩, _⟩
        · rw [hm]; decide
        · rw [hm]; decide
        · rw [hm]; exact fail_msg_ne_missing m
    exact ih (processJob ibs cts send now today st e) hq1 hr1

theorem selectJobs_length_le (queue : List Job) (now : Int) :
    (selectJobs queue now).length ≤ batch_size := by
  unfold selectJobs
  simp only [List.length_take]
  omega

theorem selectJobs_mem (queue : List Job) (now : Int) (j : Job)
    (hj : j ∈ selectJobs queue now) :
    j ∈ queue ∧ j.status = EmailStatus.queued ∧ j.send_at ≤ now := by
  unfold selectJobs at hj
  have h1 := List.take_subset _ _ hj
  have h2 := (mem_sortJobs _ _).mp h1
  have h3 := List.mem_filter.mp h2
  refine ⟨h3.1, ?_⟩
  exact of_decide_eq_true h3.2

theorem selectJobs_sorted_le (queue : List Job) (now : Int) :
    (selectJobs queue now).Pairwise (fun a b => a.send_at ≤ b.send_at) := by
  unfold selectJobs
  exact List.Pairwise.sublist (List.take_sublist _ _) (pairwise_le_sortJobs _)

theorem selectJobs_isSelectResult (queue : List Job) (now : Int) :
    IsSelectResult queue now (selectJobs queue now) :=
  ⟨sortJobs (queue.filter
      (fun j => decide (j.status = EmailStatus.queued ∧ j.send_at ≤ now))),
    perm_sortJobs _, pairwise_le_sortJobs _, rfl⟩

theorem selectJobs_all_of_small (queue : List Job) (now : Int)
    (hsmall : (queue.filter
      (fun j => decide (j.status = EmailStatus.queued ∧ j.send_at ≤ now))).length ≤ batch_size) :
    ∀ j, j ∈ selectJobs queue now ↔
      j ∈ queue.filter (fun j => decide (j.status = EmailStatus.queued ∧ j.send_at ≤ now)) := by
  unfold selectJobs
  rw [List.take_of_length_le (by rw [length_sortJobs]; exact hsmall)]
  exact fun j => mem_sortJobs j _

theorem selectJobs_minimal (queue : List Job) (now : Int) (j j' : Job)
    (hj : j ∈ selectJobs queue now)
    (hj' : j' ∈ queue.filter
      (fun j => decide (j.status = EmailStatus.queued ∧ j.send_at ≤ now)))
    (hnotsel : j' ∉ selectJobs queue now) :
    j.send_at ≤ j'.send_at := by
  have hsorted : (sortJobs (queue.filter
      (fun j => decide (j.status = EmailStatus.queued ∧ j.send_at ≤ now)))).Pairwise
      (fun a b => a.send_at ≤ b.send_at) :=
    pairwise_le_sortJobs _
  have hsplit := List.take_append_drop batch_size (sortJobs (queue.filter
    (fun j => decide (j.status = EmailStatus.queued ∧ j.send_at ≤ now))))
  have hmem : j' ∈ sortJobs (queue.filter
      (fun j => decide (j.status = EmailStatus.queued ∧ j.send_at ≤ now))) :=
    (mem_sortJobs _ _).mpr hj'
  rw [← hsplit] at hsorted hmem
  rcases List.mem_append.mp hmem with htake | hdrop
  · exact absurd htake hnotsel
  · exact (List.pairwise_append.mp hsorted).2.2 j hj j' hdrop

theorem selectJobs_eq_nil (queue : List Job) (now : Int)
    (h : ∀ j ∈ queue, ¬(j.status = EmailStatus.queued ∧ j.send_at ≤ now)) :
    selectJobs queue now = [] := by
  unfold selectJobs
  have hfilter : queue.filter
      (fun j => decide (j.status = EmailStatus.queued ∧ j.send_at ≤ now)) = [] := by
    rw [List.filter_eq_nil_iff]
    intro a ha
    simp only [decide_eq_true_eq]
    exact h a ha
  rw [hfilter]
  rfl

/-- C7: when the campaign's sequence has no steps, `start_campaign` fails
with the empty-sequence error and performs no writes at all: the returned
database equals the input database, so no SendJob is inserted and the
campaign's status is unchanged. -/
theorem C7_empty_sequence_is_fatal_and_writes_nothing (db : DB) (cid : Nat)
    (rand : Nat → ℚ) (now : Int) (camp : Campaign)
    (hc : db.campaigns.find? (fun c => c.id == cid) = some camp)
    (hempty : db.email_steps.filter (fun es => es.sequence_id == camp.sequence_id) = []) :
    start_campaign db cid rand now =
      (db, some ("Campaign " ++ toString cid ++ " has no email steps in its sequence.")) := by
  have hfs : firstStepOf db cid = none := by
    unfold firstStepOf
    simp only [hc]
    by_cases hseq : db.sequences.contains camp.sequence_id
    · rw [if_pos hseq, hempty]
      rfl
    · rw [if_neg hseq]
  unfold start_campaign
  simp only [hfs]

/-- Witness for C7 at a concrete database whose sequence has no steps. -/
theorem C7_witness :
    dbNoSteps.campaigns.find? (fun c => c.id == 1) = some campaign1 ∧
    dbNoSteps.email_steps.filter (fun es => es.sequence_id == campaign1.sequence_id) = [] ∧
    start_campaign dbNoSteps 1 (fun _ => 0) 0 =
      (dbNoSteps, some ("Campaign " ++ toString 1 ++ " has no email steps in its sequence.")) :=
  ⟨by decide, by decide,
    C7_empty_sequence_is_fatal_and_writes_nothing dbNoSteps 1 (fun _ => 0) 0 campaign1
      (by decide) (by decide)⟩

/-- C9: a dispatch cycle in which no job has status `queued` with
`send_at ≤ now` is a no-op: the queue and the counters are unchanged and
the result list is empty. -/
theorem C9_cycle_with_no_due_jobs_is_noop (ibs : List Inbox) (cts : List Contact)
    (send : SendOracle) (now today : Int) (queue : List Job) (counters : List Counter)
    (h : ∀ j ∈ queue, ¬(j.status = EmailStatus.queued ∧ j.send_at ≤ now)) :
    process_email_queue ibs cts send now today queue counters =
      { queue := queue, counts := counters, results := [] } := by
  unfold process_email_queue
  rw [selectJobs_eq_nil queue now h]
  rfl

/-- Witness for C9 at a concrete queue holding only non-queued jobs. -/
theorem C9_witness :
    (∀ j ∈ [jReschedDue, jSentDone], ¬(j.status = EmailStatus.queued ∧ j.send_at ≤ 1000)) ∧
    process_email_queue [] [] okSend 1000 0 [jReschedDue, jSentDone] [] =
      { queue := [jReschedDue, jSentDone], counts := [], results := [] } :=
  ⟨by decide, C9_cycle_with_no_due_jobs_is_noop [] [] okSend 1000 0 _ _ (by decide)⟩

/-- C2 counterexample: a sender whose `daily_send_limit` column is 1 with
two due jobs in one cycle.  The claim says exactly one is sent and the
other rescheduled; the code compares the counter only against the fixed
constant 40, never reading the sender's limit, so both jobs are sent and
none is rescheduled. -/
theorem C2_counterexample :
    inboxLimit1.daily_send_limit = 1 ∧
    (process_email_queue [inboxLimit1] [contact1, contact2] okSend 0 0 [jq1, jq2] []).results.map
        (fun r => r.status) = ["sent", "sent"] ∧
    (process_email_queue [inboxLimit1] [contact1, contact2] okSend 0 0 [jq1, jq2] []).queue.map
        (fun j => j.status) = [EmailStatus.sent, EmailStatus.sent] := by
  refine ⟨rfl, ?_, ?_⟩ <;> decide

/-- C2 (amended): the quota check compares the sender's daily counter
(read as 0 when absent) against the fixed constant 40
(`daily_limit_per_inbox`), ignoring the sender's `daily_send_limit`
column.  When the counter has reached 40, the job is set to `rescheduled`
with `send_at` advanced by exactly 24 hours from its previous value, the
result row carries reason "Daily limit reached", the counters are
untouched and the job is not sent in this cycle. -/
theorem C2_amended_quota_uses_constant_limit (ibs : List Inbox) (cts : List Contact)
    (send : SendOracle) (now today : Int) (st : CycleState) (e : Job)
    (hq : getCount st.counts e.inbox_id today ≥ daily_limit_per_inbox) :
    processJob ibs cts send now today st e =
      { queue := updateJob e.id (fun j => { j with
          status := EmailStatus.rescheduled
          send_at := j.send_at + 86400
          updated_at := now }) st.queue
        counts := st.counts
        results := st.results ++
          [{ queue_id := e.id, status := "rescheduled", message := "Daily limit reached" }] } := by
  unfold processJob
  rw [if_pos hq]

/-- Witness for the amended C2 at a sender whose counter is exactly 40. -/
theorem C2_witness :
    getCount cycleStateAtLimit.counts jq1.inbox_id 0 ≥ daily_limit_per_inbox ∧
    processJob [inbox1] [contact1] okSend 0 0 cycleStateAtLimit jq1 =
      { queue := updateJob jq1.id (fun j => { j with
          status := EmailStatus.rescheduled
          send_at := j.send_at + 86400
          updated_at := 0 }) cycleStateAtLimit.queue
        counts := cycleStateAtLimit.counts
        results := cycleStateAtLimit.results ++
          [{ queue_id := jq1.id, status := "rescheduled", message := "Daily limit reached" }] } :=
  ⟨by decide, C2_amended_quota_uses_constant_limit [inbox1] [contact1] okSend 0 0
    cycleStateAtLimit jq1 (by decide)⟩

/-- C3: the claim step of the dispatch cycle (`claim_update`, the model of
`UPDATE email_queue SET status = 'sending' ... WHERE id = $1`) is keyed by
job id only: it carries no condition on the prior status being `queued`
and reports nothing about whether a row matched.  Evaluated at a job that
has already finished (`sent`), the update still matches and drags the row
back to `sending`, whereas the compare-and-swap claim the specification
requires (`claim_update_guarded`) reports no match and leaves the row
unchanged — so a second claim attempt does not fail and the at-most-once
guarantee is not implemented. -/
theorem C3_claim_update_lacks_status_guard :
    claim_update 5 1 [jSentDone] =
      [{ jSentDone with status := EmailStatus.sending, updated_at := 5 }] ∧
    (claim_update_guarded 5 1 [jSentDone]).1 = false ∧
    (claim_update_guarded 5 1 [jSentDone]).2 = [jSentDone] := by
  refine ⟨?_, ?_, ?_⟩ <;> decide

/-- C8 counterexample: a job with status `rescheduled` whose `send_at` (0)
has long elapsed by `now = 1000`.  The claim says some later cycle's
selection re-claims it once due; the selection filter `status = 'queued'`
never picks it up, and the dispatch cycle leaves the whole state
unchanged. -/
theorem C8_counterexample :
    jReschedDue.status = EmailStatus.rescheduled ∧ jReschedDue.send_at ≤ 1000 ∧
    selectJobs [jReschedDue] 1000 = [] ∧
    process_email_queue [inbox1] [contact1] okSend 1000 0 [jReschedDue] [] =
      { queue := [jReschedDue], counts := [], results := [] } := by
  refine ⟨rfl, by decide, by decide, by decide⟩

/-- C8 (amended): jobs with status `rescheduled` are permanently excluded
from dispatch: the selection only ever returns jobs with status `queued`,
and (for a queue with distinct ids) a rescheduled job is left completely
unchanged by any dispatch cycle, so it is never re-claimed. -/
theorem C8_amended_rescheduled_jobs_stranded (ibs : List Inbox) (cts : List Contact)
    (send : SendOracle) (now today : Int) (queue : List Job) (counters : List Counter)
    (hids : (queue.map (fun j => j.id)).Nodup) :
    (∀ j ∈ selectJobs queue now, j.status = EmailStatus.queued) ∧
    (process_email_queue ibs cts send now today queue counters).queue.length = queue.length ∧
    (∀ (k : Nat) (hk : k < queue.length)
        (hk2 : k < (process_email_queue ibs cts send now today queue counters).queue.length),
      (queue.get ⟨k, hk⟩).status = EmailStatus.rescheduled →
      (process_email_queue ibs cts send now today queue counters).queue.get ⟨k, hk2⟩ =
        queue.get ⟨k, hk⟩) := by
  have hsel : ∀ j ∈ selectJobs queue now, j.status = EmailStatus.queued :=
    fun j hj => (selectJobs_mem queue now j hj).2.1
  obtain ⟨hlen, hframe⟩ := foldl_processJob_frame ibs cts send now today (selectJobs queue now)
    { queue := queue, counts := counters, results := [] }
  refine ⟨hsel, hlen, ?_⟩
  intro k hk hk2 hres
  apply hframe
  intro hmem
  obtain ⟨js, hjs, hid⟩ := List.mem_map.mp hmem
  have hjsq := (selectJobs_mem queue now js hjs).1
  have hstat := hsel js hjs
  have hjeq : js = queue.get ⟨k, hk⟩ :=
    List.inj_on_of_nodup_map hids hjsq (List.get_mem queue k hk) hid
  rw [hjeq, hres] at hstat
  exact absurd hstat (by decide)

/-- Witness for the amended C8: a queue with a due rescheduled job and a
not-yet-due queued job. -/
theorem C8_witness :
    (([jReschedDue, jLater].map (fun j => j.id)).Nodup) ∧
    ((∀ j ∈ selectJobs [jReschedDue, jLater] 1000, j.status = EmailStatus.queued) ∧
    (process_email_queue [inbox1] [contact1] okSend 1000 0 [jReschedDue, jLater] []).queue.length =
      ([jReschedDue, jLater] : List Job).length ∧
    (∀ (k : Nat) (hk : k < ([jReschedDue, jLater] : List Job).length)
        (hk2 : k < (process_email_queue [inbox1] [contact1] okSend 1000 0
          [jReschedDue, jLater] []).queue.length),
      (([jReschedDue, jLater] : List Job).get ⟨k, hk⟩).status = EmailStatus.rescheduled →
      (process_email_queue [inbox1] [contact1] okSend 1000 0
        [jReschedDue, jLater] []).queue.get ⟨k, hk2⟩ =
        ([jReschedDue, jLater] : List Job).get ⟨k, hk⟩)) :=
  ⟨by decide, C8_amended_rescheduled_jobs_stranded [inbox1] [contact1] okSend 1000 0
    [jReschedDue, jLater] [] (by decide)⟩

/-- C6 counterexample: a due job whose inbox (id 5) and contact (id 9) do
not exist in the database.  The claim says the cycle marks it `failed`
with error message "missing reference"; the code performs no existence
check at all — it claims the job and invokes the send capability, and with
a succeeding send the job ends `sent` with no error message. -/
theorem C6_counterexample :
    ([] : List Inbox).find? (fun b => b.id == jOrphan.inbox_id) = none ∧
    (process_email_queue [] [] okSend 0 0 [jOrphan] []).queue.map (fun j => j.status) =
      [EmailStatus.sent] ∧
    (process_email_queue [] [] okSend 0 0 [jOrphan] []).queue.map (fun j => j.error_message) =
      [none] ∧
    (process_email_queue [] [] okSend 0 0 [jOrphan] []).results =
      [{ queue_id := 1, status := "sent", message := "Email sent successfully" }] := by
  refine ⟨rfl, ?_, ?_, ?_⟩ <;> decide

/-- C6 (amended): the dispatch cycle looks the sender and contact rows up
but never checks that they exist; every selected job is processed and
yields exactly one result row (the batch is never aborted), and no job or
result row ever carries the message "missing reference". -/
theorem C6_amended_no_missing_reference_check (ibs : List Inbox) (cts : List Contact)
    (send : SendOracle) (now today : Int) (queue : List Job) (counters : List Counter)
    (h0 : ∀ j ∈ queue, j.error_message ≠ some "missing reference") :
    (process_email_queue ibs cts send now today queue counters).results.length =
      (selectJobs queue now).length ∧
    (∀ j ∈ (process_email_queue ibs cts send now today queue counters).queue,
      j.error_message ≠ some "missing reference") ∧
    (∀ r ∈ (process_email_queue ibs cts send now today queue counters).results,
      r.message ≠ "missing reference") := by
  obtain ⟨new, hres, hlen, _⟩ := foldl_processJob_results_counts ibs cts send now today
    (selectJobs queue now) { queue := queue, counts := counters, results := [] }
  obtain ⟨hqinv, hrinv⟩ := foldl_processJob_no_missing ibs cts send now today
    (selectJobs queue now) { queue := queue, counts := counters, results := [] } h0
    (by intro r hr; simp at hr)
  have hres' : (process_email_queue ibs cts send now today queue counters).results = new := by
    simpa [process_email_queue] using hres
  refine ⟨?_, hqinv, hrinv⟩
  rw [hres', hlen]

/-- Witness for the amended C6 at a concrete state with one due job. -/
theorem C6_witness :
    (∀ j ∈ [jq1], j.error_message ≠ some "missing reference") ∧
    ((process_email_queue [inbox1] [contact1] okSend 0 0 [jq1] []).results.length =
      (selectJobs [jq1] 0).length ∧
    (∀ j ∈ (process_email_queue [inbox1] [contact1] okSend 0 0 [jq1] []).queue,
      j.error_message ≠ some "missing reference") ∧
    (∀ r ∈ (process_email_queue [inbox1] [contact1] okSend 0 0 [jq1] []).results,
      r.message ≠ "missing reference")) :=
  ⟨by decide, C6_amended_no_missing_reference_check [inbox1] [contact1] okSend 0 0 [jq1] []
    (by decide)⟩

theorem start_campaign_success (db : DB) (cid : Nat) (rand : Nat → ℚ) (now : Int)
    (camp : Campaign) (fs : Step) (ib : Inbox)
    (hstep : firstStepOf db cid = some (camp, fs))
    (hib : db.inboxes.find? (fun b => b.user_id == camp.user_id) = some ib) :
    start_campaign db cid rand now =
      ({ db with
          email_queue := db.email_queue ++ expandContacts fs camp.user_id ib.id cid rand now
            db.next_queue_id 0 now (enrolledContacts db cid)
          next_queue_id := db.next_queue_id + (expandContacts fs camp.user_id ib.id cid rand
            now db.next_queue_id 0 now (enrolledContacts db cid)).length
          campaigns := db.campaigns.map
            (fun c => if c.id == cid then { c with status := CampaignStatus.active } else c) },
        none) := by
  unfold start_campaign
  simp only [hstep, hib]

/-- C4 counterexample: two due jobs with equal `send_at` and ids 1 < 2.
The claim says ties are broken deterministically by insertion order/id;
the source query is `ORDER BY send_at ASC` with no secondary key, so SQL
admits both relative orders of the tied rows: both `[jq1, jq2]` and
`[jq2, jq1]` are admissible selection results (`IsSelectResult`), and the
second violates the claimed id tie-break (`dueOrder`). -/
theorem C4_counterexample :
    jq1.send_at = jq2.send_at ∧ jq1.id < jq2.id ∧
    IsSelectResult [jq1, jq2] 0 [jq1, jq2] ∧
    IsSelectResult [jq1, jq2] 0 [jq2, jq1] ∧
    ¬ ([jq2, jq1].Pairwise dueOrder) := by
  refine ⟨rfl, by decide,
    ⟨[jq1, jq2], by decide, by decide, rfl⟩,
    ⟨[jq2, jq1], by decide, by decide, rfl⟩, ?_⟩
  intro h
  have hd := (List.pairwise_cons.mp h).1 jq1 (List.mem_cons_self jq1 [])
  unfold dueOrder at hd
  rcases hd with h1 | ⟨_, h2⟩
  · exact absurd h1 (by decide)
  · exact absurd h2 (by decide)

/-- C4 (amended): the selection of a dispatch cycle is an admissible
result of the source query (`IsSelectResult`): at most `batch_size` (10)
jobs, all of them queued and due (`status = queued`, `send_at ≤ now`) and
drawn from the queue, in ascending `send_at` order — the relative order
of jobs with equal `send_at` is not specified by the code; when at most
10 jobs are due the selection is exactly the due set, every unselected
due job is due no earlier than any selected one, and jobs whose id is not
selected are left completely unchanged by the cycle. -/
theorem C4_amended_selection_sorted_without_tie_guarantee (ibs : List Inbox)
    (cts : List Contact) (send : SendOracle) (now today : Int) (queue : List Job)
    (counters : List Counter) :
    IsSelectResult queue now (selectJobs queue now) ∧
    (selectJobs queue now).length ≤ batch_size ∧
    (∀ j ∈ selectJobs queue now,
      j ∈ queue ∧ j.status = EmailStatus.queued ∧ j.send_at ≤ now) ∧
    (selectJobs queue now).Pairwise (fun a b => a.send_at ≤ b.send_at) ∧
    ((queue.filter (fun j => decide (j.status = EmailStatus.queued ∧ j.send_at ≤ now))).length ≤
        batch_size →
      ∀ j, j ∈ selectJobs queue now ↔
        j ∈ queue.filter (fun j => decide (j.status = EmailStatus.queued ∧ j.send_at ≤ now))) ∧
    (∀ j j', j ∈ selectJobs queue now →
      j' ∈ queue.filter (fun j => decide (j.status = EmailStatus.queued ∧ j.send_at ≤ now)) →
      j' ∉ selectJobs queue now → j.send_at ≤ j'.send_at) ∧
    (process_email_queue ibs cts send now today queue counters).queue.length = queue.length ∧
    (∀ (k : Nat) (hk : k < queue.length)
        (hk2 : k < (process_email_queue ibs cts send now today queue counters).queue.length),
      (queue.get ⟨k, hk⟩).id ∉ (selectJobs queue now).map (fun j => j.id) →
      (process_email_queue ibs cts send now today queue counters).queue.get ⟨k, hk2⟩ =
        queue.get ⟨k, hk⟩) := by
  obtain ⟨hlen, hframe⟩ := foldl_processJob_frame ibs cts send now today (selectJobs queue now)
    { queue := queue, counts := counters, results := [] }
  exact ⟨selectJobs_isSelectResult queue now,
    selectJobs_length_le queue now,
    fun j hj => selectJobs_mem queue now j hj,
    selectJobs_sorted_le queue now,
    fun hsmall j => selectJobs_all_of_small queue now hsmall j,
    fun j j' hj hj' hns => selectJobs_minimal queue now j j' hj hj' hns,
    hlen,
    hframe⟩

/-- Witness for the amended C4 at a concrete queue of three jobs, two of
them due. -/
theorem C4_witness :
    IsSelectResult qW 100 (selectJobs qW 100) ∧
    (selectJobs qW 100).length ≤ batch_size ∧
    (∀ j ∈ selectJobs qW 100,
      j ∈ qW ∧ j.status = EmailStatus.queued ∧ j.send_at ≤ 100) ∧
    (selectJobs qW 100).Pairwise (fun a b => a.send_at ≤ b.send_at) ∧
    ((qW.filter (fun j => decide (j.status = EmailStatus.queued ∧ j.send_at ≤ 100))).length ≤
        batch_size →
      ∀ j, j ∈ selectJobs qW 100 ↔
        j ∈ qW.filter (fun j => decide (j.status = EmailStatus.queued ∧ j.send_at ≤ 100))) ∧
    (∀ j j', j ∈ selectJobs qW 100 →
      j' ∈ qW.filter (fun j => decide (j.status = EmailStatus.queued ∧ j.send_at ≤ 100)) →
      j' ∉ selectJobs qW 100 → j.send_at ≤ j'.send_at) ∧
    (process_email_queue [inbox1] [contact1, contact2] okSend 100 0 qW []).queue.length =
      qW.length ∧
    (∀ (k : Nat) (hk : k < qW.length)
        (hk2 : k < (process_email_queue [inbox1] [contact1, contact2] okSend 100 0
          qW []).queue.length),
      (qW.get ⟨k, hk⟩).id ∉ (selectJobs qW 100).map (fun j => j.id) →
      (process_email_queue [inbox1] [contact1, contact2] okSend 100 0 qW []).queue.get
          ⟨k, hk2⟩ = qW.get ⟨k, hk⟩) :=
  C4_amended_selection_sorted_without_tie_guarantee [inbox1] [contact1, contact2]
    okSend 100 0 qW []

/-- C1: for a campaign with a first sequence step and an owner inbox,
`start_campaign` succeeds and inserts exactly one SendJob per enrolled
contact (in enrollment order, for the lowest-numbered step), and the
inserted `send_at` values accumulate the per-contact jitter across the
loop starting from the anchor `now`: job `k` is scheduled at
`now + delaySumFrom rand 0 (k+1)`, the gap between `now` and the first
job and between any two consecutive jobs is between 90 and 300 seconds
(so send times strictly increase in enrollment order). -/
theorem C1_expander_inserts_one_staggered_job_per_contact (db : DB) (cid : Nat)
    (rand : Nat → ℚ) (now : Int) (camp : Campaign) (fs : Step) (ib : Inbox)
    (hstep : firstStepOf db cid = some (camp, fs))
    (hib : db.inboxes.find? (fun b => b.user_id == camp.user_id) = some ib)
    (hrand : ∀ i, 0 ≤ rand i ∧ rand i < 1) :
    (start_campaign db cid rand now).2 = none ∧
    (start_campaign db cid rand now).1.email_queue.length =
      db.email_queue.length + (enrolledContacts db cid).length ∧
    (let jobs := (start_campaign db cid rand now).1.email_queue.drop db.email_queue.length
     jobs.length = (enrolledContacts db cid).length ∧
     (∀ (k : Nat) (hk : k < jobs.length) (hk2 : k < (enrolledContacts db cid).length),
       (jobs.get ⟨k, hk⟩).contact_id = ((enrolledContacts db cid).get ⟨k, hk2⟩).id ∧
       (jobs.get ⟨k, hk⟩).email_step_id = fs.id ∧
       (jobs.get ⟨k, hk⟩).status = EmailStatus.queued ∧
       (jobs.get ⟨k, hk⟩).send_at = now + delaySumFrom rand 0 (k + 1)) ∧
     (∀ hk : 0 < jobs.length,
       90 ≤ (jobs.get ⟨0, hk⟩).send_at - now ∧ (jobs.get ⟨0, hk⟩).send_at - now ≤ 300) ∧
     (∀ (k : Nat) (hk : k < jobs.length) (hk2 : k + 1 < jobs.length),
       90 ≤ (jobs.get ⟨k + 1, hk2⟩).send_at - (jobs.get ⟨k, hk⟩).send_at ∧
       (jobs.get ⟨k + 1, hk2⟩).send_at - (jobs.get ⟨k, hk⟩).send_at ≤ 300)) := by
  have hsc := start_campaign_success db cid rand now camp fs ib hstep hib
  refine ⟨by rw [hsc], ?_, ?_⟩
  · rw [hsc]
    show (db.email_queue ++ expandContacts fs camp.user_id ib.id cid rand now
      db.next_queue_id 0 now (enrolledContacts db cid)).length = _
    rw [List.length_append,
      expandContacts_length fs camp.user_id ib.id cid rand now (enrolledContacts db cid)]
  · intro jobs
    have hjobs : jobs = expandContacts fs camp.user_id ib.id cid rand now
        db.next_queue_id 0 now (enrolledContacts db cid) := by
      show (start_campaign db cid rand now).1.email_queue.drop db.email_queue.length = _
      rw [hsc]
      exact List.drop_left db.email_queue _
    have hlenJ : jobs.length = (enrolledContacts db cid).length := by
      rw [hjobs]
      exact expandContacts_length fs camp.user_id ib.id cid rand now (enrolledContacts db cid)
        db.next_queue_id 0 now
    have hget : ∀ (k : Nat) (hk : k < jobs.length) (hk2 : k < (enrolledContacts db cid).length),
        jobs.get ⟨k, hk⟩ =
          { id := db.next_queue_id + k
            user_id := camp.user_id
            campaign_id := cid
            contact_id := ((enrolledContacts db cid).get ⟨k, hk2⟩).id
            inbox_id := ib.id
            sequence_id := fs.sequence_id
            email_step_id := fs.id
            subject := personalized_subject fs ((enrolledContacts db cid).get ⟨k, hk2⟩)
            body := personalized_body fs ((enrolledContacts db cid).get ⟨k, hk2⟩)
            send_at := now + delaySumFrom rand 0 (k + 1)
            status := EmailStatus.queued
            error_message := none
            created_at := now
            updated_at := now } := by
      intro k hk hk2
      revert hk
      rw [hjobs]
      intro hk
      exact expandContacts_get fs camp.user_id ib.id cid rand now
        (enrolledContacts db cid) db.next_queue_id 0 now k hk2 hk
    have hdelay : ∀ i, 90 ≤ random_delay_seconds (rand i) ∧
        random_delay_seconds (rand i) ≤ 300 :=
      fun i => random_delay_bounds (rand i) (hrand i).1 (hrand i).2
    refine ⟨hlenJ, ?_, ?_, ?_⟩
    · intro k hk hk2
      rw [hget k hk hk2]
      exact ⟨rfl, rfl, rfl, rfl⟩
    · intro h0
      have h0' : 0 < (enrolledContacts db cid).length := by rw [← hlenJ]; exact h0
      rw [hget 0 h0 h0']
      have hval : delaySumFrom rand 0 1 = random_delay_seconds (rand 0) := by
        simp [delaySumFrom]
      show 90 ≤ now + delaySumFrom rand 0 1 - now ∧ now + delaySumFrom rand 0 1 - now ≤ 300
      rw [hval]
      have := hdelay 0
      constructor <;> omega
    · intro k hk hk2
      have hke : k < (enrolledContacts db cid).length := by rw [← hlenJ]; exact hk
      have hke2 : k + 1 < (enrolledContacts db cid).length := by rw [← hlenJ]; exact hk2
      rw [hget k hk hke, hget (k + 1) hk2 hke2]
      have hsucc : delaySumFrom rand 0 (k + 1 + 1) =
          delaySumFrom rand 0 (k + 1) + random_delay_seconds (rand (k + 1)) := by
        have : delaySumFrom rand 0 (k + 1 + 1) =
            delaySumFrom rand 0 (k + 1) + random_delay_seconds (rand (0 + (k + 1))) := rfl
        simpa [Nat.zero_add] using this
      have := hdelay (k + 1)
      show 90 ≤ now + delaySumFrom rand 0 (k + 1 + 1) - (now + delaySumFrom rand 0 (k + 1)) ∧
        now + delaySumFrom rand 0 (k + 1 + 1) - (now + delaySumFrom rand 0 (k + 1)) ≤ 300
      rw [hsucc]
      constructor <;> omega

/-- Witness for C1 at a concrete database with two enrolled contacts and
the zero random stream (every jitter is exactly 90 seconds). -/
theorem C1_witness :
    firstStepOf db0 1 = some (campaign1, step1) ∧
    db0.inboxes.find? (fun b => b.user_id == campaign1.user_id) = some inbox1 ∧
    (∀ i, 0 ≤ rand0 i ∧ rand0 i < 1) ∧
    ((start_campaign db0 1 rand0 0).2 = none ∧
    (start_campaign db0 1 rand0 0).1.email_queue.length =
      db0.email_queue.length + (enrolledContacts db0 1).length ∧
    (let jobs := (start_campaign db0 1 rand0 0).1.email_queue.drop db0.email_queue.length
     jobs.length = (enrolledContacts db0 1).length ∧
     (∀ (k : Nat) (hk : k < jobs.length) (hk2 : k < (enrolledContacts db0 1).length),
       (jobs.get ⟨k, hk⟩).contact_id = ((enrolledContacts db0 1).get ⟨k, hk2⟩).id ∧
       (jobs.get ⟨k, hk⟩).email_step_id = step1.id ∧
       (jobs.get ⟨k, hk⟩).status = EmailStatus.queued ∧
       (jobs.get ⟨k, hk⟩).send_at = 0 + delaySumFrom rand0 0 (k + 1)) ∧
     (∀ hk : 0 < jobs.length,
       90 ≤ (jobs.get ⟨0, hk⟩).send_at - 0 ∧ (jobs.get ⟨0, hk⟩).send_at - 0 ≤ 300) ∧
     (∀ (k : Nat) (hk : k < jobs.length) (hk2 : k + 1 < jobs.length),
       90 ≤ (jobs.get ⟨k + 1, hk2⟩).send_at - (jobs.get ⟨k, hk⟩).send_at ∧
       (jobs.get ⟨k + 1, hk2⟩).send_at - (jobs.get ⟨k, hk⟩).send_at ≤ 300))) :=
  ⟨by decide, by decide, fun i => ⟨le_refl (0 : ℚ), by norm_num [rand0]⟩,
    C1_expander_inserts_one_staggered_job_per_contact db0 1 rand0 0 campaign1 step1 inbox1
      (by decide) (by decide) (fun i => ⟨le_refl (0 : ℚ), by norm_num [rand0]⟩)⟩

/-- C10: in every SendJob created by `start_campaign`, the stored subject
and body are exactly the step templates with the two supported tags
substituted in the fixed order (firstName then companyName, via
`personalized_subject` and `personalized_body`); the compliance footer is
appended after substitution, so its unsubscribe placeholder survives
verbatim in the stored body; and when the step body contains neither
supported tag the stored body is the template unchanged plus the footer —
no other merge tag is ever resolved. -/
theorem C10_only_supported_tags_substituted (db : DB) (cid : Nat) (rand : Nat → ℚ)
    (now : Int) (camp : Campaign) (fs : Step) (ib : Inbox)
    (hstep : firstStepOf db cid = some (camp, fs))
    (hib : db.inboxes.find? (fun b => b.user_id == camp.user_id) = some ib) :
    ∀ j ∈ (start_campaign db cid rand now).1.email_queue,
      j ∈ db.email_queue ∨
      ∃ c ∈ enrolledContacts db cid,
        j.subject = personalized_subject fs c ∧
        j.body = personalized_body fs c ∧
        occursIn unsubscribeTag.toList j.body.toList = true ∧
        (occursIn tagFirstName.toList fs.body.toList = false →
         occursIn tagCompanyName.toList fs.body.toList = false →
         j.body = fs.body ++ complianceFooter) := by
  have hsc := start_campaign_success db cid rand now camp fs ib hstep hib
  intro j hj
  rw [hsc] at hj
  have hj' : j ∈ db.email_queue ++ expandContacts fs camp.user_id ib.id cid rand now
      db.next_queue_id 0 now (enrolledContacts db cid) := hj
  rcases List.mem_append.mp hj' with hold | hnew
  · exact Or.inl hold
  · right
    obtain ⟨⟨k, hk⟩, hkeq⟩ := List.mem_iff_get.mp hnew
    have hk2 : k < (enrolledContacts db cid).length := by
      have hlen := expandContacts_length fs camp.user_id ib.id cid rand now
        (enrolledContacts db cid) db.next_queue_id 0 now
      rw [← hlen]
      exact hk
    have hgetj := expandContacts_get fs camp.user_id ib.id cid rand now
      (enrolledContacts db cid) db.next_queue_id 0 now k hk2 hk
    rw [hgetj] at hkeq
    refine ⟨(enrolledContacts db cid).get ⟨k, hk2⟩, List.get_mem _ _ _, ?_, ?_, ?_, ?_⟩
    · rw [← hkeq]
    · rw [← hkeq]
    · rw [← hkeq]
      show occursIn unsubscribeTag.toList
        (personalized_body fs ((enrolledContacts db cid).get ⟨k, hk2⟩)).toList = true
      have hsplit : (personalized_body fs ((enrolledContacts db cid).get ⟨k, hk2⟩)).toList =
          (replaceStr (replaceStr fs.body tagFirstName
              ((enrolledContacts db cid).get ⟨k, hk2⟩).first_name) tagCompanyName
            ((enrolledContacts db cid).get ⟨k, hk2⟩).company_name).toList ++
          complianceFooter.toList := rfl
      rw [hsplit]
      exact occursIn_append_right _ _ _ (by decide)
    · intro h1 h2
      rw [← hkeq]
      show personalized_body fs ((enrolledContacts db cid).get ⟨k, hk2⟩) =
        fs.body ++ complianceFooter
      unfold personalized_body
      rw [replaceStr_of_not_occurs fs.body tagFirstName _ h1,
        replaceStr_of_not_occurs fs.body tagCompanyName _ h2]

/-- Witness for C10 at a concrete database whose step templates use both
supported tags and one unsupported tag. -/
theorem C10_witness :
    firstStepOf db0 1 = some (campaign1, step1) ∧
    db0.inboxes.find? (fun b => b.user_id == campaign1.user_id) = some inbox1 ∧
    (∀ j ∈ (start_campaign db0 1 rand0 0).1.email_queue,
      j ∈ db0.email_queue ∨
      ∃ c ∈ enrolledContacts db0 1,
        j.subject = personalized_subject step1 c ∧
        j.body = personalized_body step1 c ∧
        occursIn unsubscribeTag.toList j.body.toList = true ∧
        (occursIn tagFirstName.toList step1.body.toList = false →
         occursIn tagCompanyName.toList step1.body.toList = false →
         j.body = step1.body ++ complianceFooter)) :=
  ⟨by decide, by decide,
    C10_only_supported_tags_substituted db0 1 rand0 0 campaign1 step1 inbox1
      (by decide) (by decide)⟩

theorem runCyclesTrace_results_length (ibs : List Inbox) (cts : List Contact) :
    ∀ (envs : List CycleEnv) (q : List Job) (c : List Counter),
      ∀ e ∈ (runCyclesTrace ibs cts envs (q, c)).2, e.results.length = e.sel.length := by
  intro envs
  induction envs with
  | nil =>
    intro q c e he
    simp [runCyclesTrace] at he
  | cons env envs ih =>
    intro q c e he
    simp only [runCyclesTrace] at he
    rcases List.mem_cons.mp he with rfl | hrest
    · obtain ⟨new, hres, hlen, _⟩ := foldl_processJob_results_counts ibs cts env.send
        env.now env.today (selectJobs q env.now) { queue := q, counts := c, results := [] }
      have hres' : (process_email_queue ibs cts env.send env.now env.today q c).results = new := by
        simpa [process_email_queue] using hres
      show (process_email_queue ibs cts env.send env.now env.today q c).results.length =
        (selectJobs q env.now).length
      rw [hres', hlen]
    · exact ih _ _ e hrest

/-- C5: the per-(sender, day) counters are written only by successful
sends: starting from an empty counter table, after any sequence of
dispatch cycles the counter for inbox `S` on day `D` equals the number of
result rows with status "sent" emitted for jobs of inbox `S` during
cycles run on day `D` (each cycle emits exactly one result row per
selected job, in order).  In particular failed or rescheduled attempts
never create or increment a counter, and counters are never
decremented. -/
theorem C5_counter_equals_successful_sends (ibs : List Inbox) (cts : List Contact)
    (envs : List CycleEnv) (q0 : List Job) (S : Nat) (D : Int) :
    getCount (runCyclesTrace ibs cts envs (q0, [])).1.2 S D =
      sentInTrace S D (runCyclesTrace ibs cts envs (q0, [])).2 ∧
    ∀ e ∈ (runCyclesTrace ibs cts envs (q0, [])).2, e.results.length = e.sel.length := by
  constructor
  · have h := runCyclesTrace_getCount ibs cts envs q0 [] S D
    have h0 : getCount ([] : List Counter) S D = 0 := rfl
    rw [h0, Nat.zero_add] at h
    exact h
  · exact runCyclesTrace_results_length ibs cts envs q0 []

/-- Witness for C5 at one concrete cycle that sends one due job. -/
theorem C5_witness :
    getCount (runCyclesTrace [inbox1] [contact1]
        [{ send := okSend, now := 0, today := 0 }] ([jq1], [])).1.2 1 0 =
      sentInTrace 1 0 (runCyclesTrace [inbox1] [contact1]
        [{ send := okSend, now := 0, today := 0 }] ([jq1], [])).2 ∧
    ∀ e ∈ (runCyclesTrace [inbox1] [contact1]
        [{ send := okSend, now := 0, today := 0 }] ([jq1], [])).2,
      e.results.length = e.sel.length :=
  C5_counter_equals_successful_sends [inbox1] [contact1]
    [{ send := okSend, now := 0, today := 0 }] [jq1] 1 0

end EmailEngine
